import Mathlib

/-!
Verification of the `voicebox` system-audio capture engine
(`src-tauri/src/audio_capture/{mod,macos,windows}.rs`).

Shallow embedding conventions:
* `f32` sample values are modelled as exact rationals (`ℚ`); the capture
  pipeline only moves samples around, clamps them and scales by the integer
  constant 32767, all of which are exact on the concrete values considered.
* Raw native buffers are modelled as lists of bytes (`Nat` in `[0,256)`);
  `f32::from_le_bytes` is a bijection between 4-byte groups and bit
  patterns, so byte-level functions return the assembled 32-bit little-endian
  words instead of interpreting them as floats.
* The shared `AudioCaptureState` struct is modelled field by field; the
  `Arc<Mutex<...>>` wrappers disappear (each controller operation is a pure
  function of the state, which matches the lock-per-field access pattern of
  the source).  Native handles (`stop_tx`, `stream`) are modelled by whether
  they are present (`Bool` for `Option<Sender>` / `Option<SCStream>`).
* Calls into the OS (ScreenCaptureKit / WASAPI) are abstracted by an
  environment record saying which native call succeeds; the sleeps and the
  spawned timeout tasks are side effects with no influence on the state
  fields and are recorded as events where a claim needs the ordering.
-/

/-! ## Quantization (`samples_to_wav` per-sample conversion, macos.rs 244-249
    and windows.rs 277-282) -/

/-- Truncation toward zero of a rational, the semantics of Rust's
`as i16` cast applied to an (exact) arithmetic result. -/
def truncQ (q : ℚ) : ℤ :=
  q.num.tdiv q.den

/-- Model of Rust `f32::clamp(lo, hi)`: `if x < lo then lo else if x > hi then hi else x`. -/
def clampQ (x lo hi : ℚ) : ℚ :=
  if x < lo then lo else if x > hi then hi else x

/-- Per-sample conversion in `samples_to_wav`:
`let clamped = sample.clamp(-1.0, 1.0); (clamped * 32767.0) as i16`. -/
def quantize (s : ℚ) : ℤ :=
  truncQ (clampQ s (-1) 1 * 32767)

/-! ## Planar interleaving (`extract_audio_samples`, macos.rs 160-227) -/

/-- Planar branch of `extract_audio_samples` (macos.rs 191-223): keep the
buffers with `num_samples > 0`, take the running maximum of their lengths,
then for each frame index emit each kept channel's sample, padding with
`pad` (0.0 in the source) past the end of a shorter channel. -/
def interleaveChannels {α : Type} (pad : α) (buffers : List (List α)) : List α :=
  let channel_data := buffers.filter (fun c => decide (0 < c.length))
  let max_samples := (channel_data.map List.length).foldl Nat.max 0
  (List.range max_samples).flatMap (fun i => channel_data.map (fun c => c.getD i pad))

/-- Value-level model of `extract_audio_samples` on the decoded per-buffer
f32 contents: zero buffers yield no samples, a single buffer is interleaved
audio passed through unchanged, two or more buffers are planar channels to
be interleaved. -/
def extractSamples : List (List ℚ) → List ℚ
  | [] => []
  | [b] => b
  | bufs => interleaveChannels 0 bufs

/-- Interleaving exactly as §4.2 of the spec words it (for the refinement
comparison of claim C1): for frame index `i` from 0 to the maximum channel
length minus one, emit channel 0's sample at `i`, then channel 1's sample at
`i`, and so on, with every channel shorter than the maximum contributing 0.0
at its missing indices. -/
def specInterleave (channels : List (List ℚ)) : List ℚ :=
  let maxLen := (channels.map List.length).foldl Nat.max 0
  (List.range maxLen).flatMap (fun i => channels.map (fun c => c.getD i 0))

/-! ## Byte-level buffer handling -/

/-- Little-endian 32-bit word at byte offset `off` (the bit pattern read by
`f32::from_le_bytes` / the unaligned `*const f32` reinterpretation). -/
def word32At (bytes : List Nat) (off : Nat) : Nat :=
  bytes.getD off 0 + 256 * bytes.getD (off + 1) 0
    + 65536 * bytes.getD (off + 2) 0 + 16777216 * bytes.getD (off + 3) 0

/-- Reinterpretation of a raw byte buffer as consecutive 32-bit samples:
`num_samples = data_bytes.len() / size_of::<f32>()` words, trailing bytes
ignored (macos.rs 182, 199). -/
def decode4 (bytes : List Nat) : List Nat :=
  (List.range (bytes.length / 4)).map (fun i => word32At bytes (4 * i))

/-- Byte-level model of `extract_audio_samples` (macos.rs 160-227), samples
represented by their 32-bit little-endian bit patterns.  The input is
`none` when `sample_buffer.audio_buffer_list()` fails (the only error path);
otherwise the bytes of each native buffer.  No format information is
consulted: every buffer is reinterpreted as 32-bit words unconditionally. -/
def extractSamplesBytes : Option (List (List Nat)) → Except String (List Nat)
  | none => .error "Failed to get audio buffer list"
  | some [] => .ok []
  | some [b] => .ok (decode4 b)
  | some bufs => .ok (interleaveChannels 0 (bufs.map decode4))

/-- One delivered packet in the Windows capture loop (windows.rs 150-193):
`frames` frames read into `buffer`.  Samples are appended only when the mix
format's `bytes_per_sample` is 4 (the `if bytes_per_sample == 4` guard at
windows.rs 165); each appended sample is the 32-bit little-endian word at
offset `4*i`, guarded by `byte_offset + 4 <= buffer.len()`. -/
def winProcessPacket (bytes_per_sample channels frames : Nat)
    (buffer : List Nat) (samples : List Nat) : List Nat :=
  if 0 < frames then
    if bytes_per_sample = 4 then
      samples ++ (List.range (frames * channels)).filterMap (fun i =>
        if 4 * i + 4 ≤ buffer.length then some (word32At buffer (4 * i)) else none)
    else samples
  else samples

/-- One observation made by the Windows capture loop: either the stop flag
is seen set, or a packet is delivered by `read_from_device`. -/
inductive WStep : Type
  | flagSet : WStep
  | packet (frames : Nat) (buffer : List Nat) : WStep
deriving DecidableEq, Repr

/-- The Windows capture loop (windows.rs 143-202) over a finite schedule of
observations: packets are processed until the stop flag is first observed,
at which point the loop breaks and `audio_client.stop_stream()` runs (the
returned `Bool` records that the native stream was stopped); if the schedule
ends without the flag the loop is still running (stream not yet stopped). -/
def winWorker (bytes_per_sample channels : Nat) :
    List WStep → List Nat → List Nat × Bool
  | [], samples => (samples, false)
  | WStep.flagSet :: _, samples => (samples, true)
  | WStep.packet f b :: rest, samples =>
      winWorker bytes_per_sample channels rest
        (winProcessPacket bytes_per_sample channels f b samples)

/-! ## WAV container (`samples_to_wav`, via `hound` with a 16-bit integer
    PCM spec: 44-byte canonical header followed by little-endian samples) -/

/-- Two little-endian bytes of a 16-bit unsigned value. -/
def u16le (n : Nat) : List Nat :=
  [n % 256, n / 256 % 256]

/-- Four little-endian bytes of a 32-bit unsigned value. -/
def u32le (n : Nat) : List Nat :=
  [n % 256, n / 256 % 256, n / 65536 % 256, n / 16777216 % 256]

/-- Two's-complement little-endian bytes of a signed 16-bit sample. -/
def i16le (i : ℤ) : List Nat :=
  u16le (i % 65536).toNat

/-- The data chunk body: each sample quantized and written as a
little-endian `i16` (`writer.write_sample(i16_sample)`). -/
def sampleBytes (samples : List ℚ) : List Nat :=
  samples.flatMap (fun s => i16le (quantize s))

/-- Model of `samples_to_wav`: the byte output of `hound`'s `WavWriter` for
`WavSpec { channels, sample_rate, bits_per_sample: 16, sample_format: Int }`
— the canonical 44-byte RIFF/WAVE PCM header followed by the samples. -/
def wavBytes (samples : List ℚ) (sample_rate channels : Nat) : List Nat :=
  let dataSize := 2 * samples.length
  [0x52, 0x49, 0x46, 0x46] ++ u32le (36 + dataSize) ++ [0x57, 0x41, 0x56, 0x45]
    ++ [0x66, 0x6D, 0x74, 0x20] ++ u32le 16 ++ u16le 1 ++ u16le channels
    ++ u32le sample_rate ++ u32le (sample_rate * channels * 2) ++ u16le (channels * 2)
    ++ u16le 16 ++ [0x64, 0x61, 0x74, 0x61] ++ u32le dataSize ++ sampleBytes samples

/-- Signed interpretation of a 16-bit unsigned word. -/
def i16OfU16 (u : Nat) : ℤ :=
  if u < 32768 then (u : ℤ) else (u : ℤ) - 65536

/-- Decode a stream of little-endian 16-bit signed samples. -/
def decodeI16s : List Nat → List ℤ
  | b0 :: b1 :: rest => i16OfU16 (b0 + 256 * b1) :: decodeI16s rest
  | _ => []

/-- Modelled from the spec: a conforming reader of the canonical
uncompressed container (§6: "header declares sample rate, channel count,
16-bit depth, integer sample format; body is raw little-endian 16-bit
samples interleaved by channel").  It checks the RIFF/WAVE/fmt/data magic
bytes, PCM format tag 1 and bit depth 16, reads the declared channel count
and sample rate, and decodes the body; returns `none` on a malformed
container.  (The repository has no decoder of its own, only the external
`hound`-compatible consumers.) -/
def wavDecode : List Nat → Option (Nat × Nat × List ℤ)
  | r0 :: r1 :: r2 :: r3 :: _s0 :: _s1 :: _s2 :: _s3 ::
    w0 :: w1 :: w2 :: w3 :: f0 :: f1 :: f2 :: f3 ::
    l0 :: l1 :: l2 :: l3 :: a0 :: a1 :: c0 :: c1 ::
    sr0 :: sr1 :: sr2 :: sr3 :: _b0 :: _b1 :: _b2 :: _b3 ::
    _ba0 :: _ba1 :: bp0 :: bp1 :: d0 :: d1 :: d2 :: d3 ::
    _ds0 :: _ds1 :: _ds2 :: _ds3 :: rest =>
      if [r0, r1, r2, r3] = [0x52, 0x49, 0x46, 0x46]
          ∧ [w0, w1, w2, w3] = [0x57, 0x41, 0x56, 0x45]
          ∧ [f0, f1, f2, f3] = [0x66, 0x6D, 0x74, 0x20]
          ∧ [l0, l1, l2, l3] = [16, 0, 0, 0]
          ∧ [a0, a1] = [1, 0]
          ∧ [bp0, bp1] = [16, 0]
          ∧ [d0, d1, d2, d3] = [0x64, 0x61, 0x74, 0x61] then
        some (c0 + 256 * c1,
          sr0 + 256 * sr1 + 65536 * sr2 + 16777216 * sr3,
          decodeI16s rest)
      else none
  | _ => none

/-! ## Base64 (`general_purpose::STANDARD.encode`, standard alphabet with
    `=` padding, no line wrapping) -/

/-- ASCII codes of the standard base64 alphabet. -/
def base64Alphabet : List Nat :=
  [65, 66, 67, 68, 69, 70, 71, 72, 73, 74, 75, 76, 77, 78, 79, 80, 81, 82,
   83, 84, 85, 86, 87, 88, 89, 90, 97, 98, 99, 100, 101, 102, 103, 104, 105,
   106, 107, 108, 109, 110, 111, 112, 113, 114, 115, 116, 117, 118, 119, 120,
   121, 122, 48, 49, 50, 51, 52, 53, 54, 55, 56, 57, 43, 47]

/-- One base64 output character. -/
def b64c (n : Nat) : Nat :=
  base64Alphabet.getD n 0

/-- Standard base64 of a byte sequence, as ASCII codes (61 is `=`). -/
def base64Encode : List Nat → List Nat
  | [] => []
  | [b0] => [b64c (b0 / 4), b64c (b0 % 4 * 16), 61, 61]
  | [b0, b1] => [b64c (b0 / 4), b64c (b0 % 4 * 16 + b1 / 16), b64c (b1 % 16 * 4), 61]
  | b0 :: b1 :: b2 :: rest =>
      [b64c (b0 / 4), b64c (b0 % 4 * 16 + b1 / 16),
       b64c (b1 % 16 * 4 + b2 / 64), b64c (b2 % 64)] ++ base64Encode rest

/-! ## Controller state machine (`mod.rs`, `macos.rs`/`windows.rs`
    `start_capture` / `stop_capture`) -/

/-- Steps the controller performs, in source order, recorded as events. -/
inductive Event : Type
  | resetState        : Event
  | nativeStreamStart : Event
  | signalStop        : Event
  | backendStreamStop : Event
  | graceWait         : Event
  | checkErrorSlot    : Event
  | checkBuffer       : Event
deriving DecidableEq, Repr

/-- The shared session state (`AudioCaptureState`, mod.rs 16-24).  `stop_tx`
and `stream` record whether the corresponding `Option` currently holds a
sender / an `SCStream` (`stream` exists only behind `cfg(target_os = "macos")`
and is never touched by the Windows functions). -/
structure AudioCaptureState : Type where
  samples : List ℚ
  sample_rate : Nat
  channels : Nat
  stop_tx : Bool
  error : Option String
  stream : Bool
deriving DecidableEq, Repr

/-- `AudioCaptureState::new` (mod.rs 27-37). -/
def AudioCaptureState.new : AudioCaptureState :=
  { samples := [], sample_rate := 44100, channels := 2,
    stop_tx := false, error := none, stream := false }

/-- `AudioCaptureState::reset` (mod.rs 39-42): clears the samples and the
error slot, nothing else. -/
def AudioCaptureState.reset (s : AudioCaptureState) : AudioCaptureState :=
  { s with samples := [], error := none }

/-- Result, final state and emitted events of one controller operation. -/
structure StepOut (ρ : Type) : Type where
  result : Except String ρ
  state : AudioCaptureState
  events : List Event
deriving Repr

/-- Outcomes of the native ScreenCaptureKit calls made during
`start_capture` on macOS. -/
structure MacEnv : Type where
  contentOk : Bool
  displays : Nat
  startOk : Bool
deriving DecidableEq, Repr

/-- macOS `start_capture` (macos.rs 19-112): reset the session first
(line 24), then get shareable content (27), require a display (32), store
the stop sender (52), fix sample rate 48000 and 2 channels (59-60), store
the stream handle (93) and start the native stream (95).  The spawned
timeout task only forwards a stop signal later and is not part of the state
transition. -/
def macStart (env : MacEnv) (s : AudioCaptureState) (_max_duration_secs : Nat) :
    StepOut Unit :=
  let s := s.reset
  if !env.contentOk then
    { result := .error "Failed to get shareable content", state := s,
      events := [.resetState] }
  else if env.displays = 0 then
    { result := .error "No displays available", state := s,
      events := [.resetState] }
  else
    let s := { s with stop_tx := true, sample_rate := 48000, channels := 2,
                      stream := true }
    if !env.startOk then
      { result := .error "Failed to start capture", state := s,
        events := [.resetState, .nativeStreamStart] }
    else
      { result := .ok (), state := s,
        events := [.resetState, .nativeStreamStart] }

/-- Windows `start_capture` (windows.rs 11-217): reset the session
(line 16), store the stop sender (30), spawn the capture worker thread and
the timeout task, and return `Ok(())` unconditionally (all native failures
happen on the worker thread and land in the error slot).  The worker's own
native stream start is what `nativeStreamStart` records. -/
def winStart (s : AudioCaptureState) (_max_duration_secs : Nat) : StepOut Unit :=
  let s := s.reset
  { result := .ok (), state := { s with stop_tx := true },
    events := [.resetState, .nativeStreamStart] }

/-- Error message of macOS `stop_capture` for an empty capture (macos.rs 134). -/
def macEmptyMsg : String := "No audio samples captured"

/-- Error message of Windows `stop_capture` for an empty capture (windows.rs 239). -/
def winEmptyMsg : String :=
  "No audio samples captured. Make sure audio is playing on your system during recording."

/-- macOS `stop_capture` (macos.rs 114-144): take and fire the stop sender
(116-118), take the stream handle and stop it (121-123), sleep 500 ms
(126), then snapshot the samples and either fail on an empty capture (133-
135) or return the base64 of the WAV encoding (138-143).  The error slot is
never consulted. -/
def macStop (s : AudioCaptureState) : StepOut String :=
  { result :=
      if s.samples = [] then .error macEmptyMsg
      else .ok (String.mk ((base64Encode
        (wavBytes s.samples s.sample_rate s.channels)).map Char.ofNat)),
    state := { s with stop_tx := false, stream := false },
    events := (if s.stop_tx then [Event.signalStop] else [])
      ++ (if s.stream then [Event.backendStreamStop] else [])
      ++ [Event.graceWait, Event.checkBuffer] }

/-- Windows `stop_capture` (windows.rs 219-249): take and fire the stop
sender (221-223), sleep 500 ms (226), return any recorded capture error
(229-231), then snapshot the samples and either fail on an empty capture
(238-240) or return the base64 of the WAV encoding (243-248). -/
def winStop (s : AudioCaptureState) : StepOut String :=
  { result :=
      match s.error with
      | some e => .error e
      | none =>
        if s.samples = [] then .error winEmptyMsg
        else .ok (String.mk ((base64Encode
          (wavBytes s.samples s.sample_rate s.channels)).map Char.ofNat)),
    state := { s with stop_tx := false },
    events := (if s.stop_tx then [Event.signalStop] else [])
      ++ [Event.graceWait, Event.checkErrorSlot]
      ++ (match s.error with
          | some _ => []
          | none => [Event.checkBuffer]) }

/-- States of a macOS session reachable from `AudioCaptureState::new` by the
operations the macOS backend actually performs: `start_capture`,
delivery of a decoded audio buffer by the `SCStreamOutputTrait` handler
(macos.rs 73-78: `samples_guard.extend_from_slice(&audio_samples)`), and
`stop_capture`. -/
inductive macReachable : AudioCaptureState → Prop
  | init : macReachable AudioCaptureState.new
  | start (env : MacEnv) (d : Nat) {s : AudioCaptureState} :
      macReachable s → macReachable (macStart env s d).state
  | deliver (bufs : List (List ℚ)) {s : AudioCaptureState} :
      macReachable s →
      macReachable { s with samples := s.samples ++ extractSamples bufs }
  | stop {s : AudioCaptureState} :
      macReachable s → macReachable (macStop s).state

/-! ## Helper lemmas -/

/-- Truncation toward zero agrees with floor on nonnegative rationals and
with ceiling on negative ones. -/
lemma truncQ_eq (q : ℚ) : truncQ q = if 0 ≤ q then ⌊q⌋ else ⌈q⌉ := by
  unfold truncQ
  split
  case isTrue h =>
    rw [Rat.floor_def]
    exact Int.tdiv_eq_ediv (Rat.num_nonneg.mpr h) (Int.natCast_nonneg _)
  case isFalse h =>
    have hceil : ⌈q⌉ = -⌊-q⌋ := by
      rw [Int.floor_neg]
      ring
    have hneg : q.num.tdiv q.den = -((-q.num).tdiv q.den) := by
      rw [Int.neg_tdiv, Int.neg_neg]
    have hnum : (0 : ℤ) ≤ -q.num := by
      have h2 : ¬ (0 : ℤ) ≤ q.num := fun hc => h (Rat.num_nonneg.mp hc)
      omega
    rw [hceil, hneg, Rat.floor_def, Rat.neg_num, Rat.neg_den]
    exact congrArg Neg.neg (Int.tdiv_eq_ediv hnum (Int.natCast_nonneg _))

/-- The clamp step lands in the closed target interval. -/
lemma clampQ_mem (x lo hi : ℚ) (h : lo ≤ hi) :
    lo ≤ clampQ x lo hi ∧ clampQ x lo hi ≤ hi := by
  unfold clampQ
  split
  · exact ⟨le_refl lo, h⟩
  · split
    · exact ⟨h, le_refl hi⟩
    · rename_i h1 h2
      exact ⟨le_of_not_lt h1, le_of_not_lt h2⟩

/-- The quantized sample always lies in the symmetric 16-bit range
`[-32767, 32767]`; in particular it never wraps or saturates. -/
lemma quantize_range (s : ℚ) : -32767 ≤ quantize s ∧ quantize s ≤ 32767 := by
  obtain ⟨hlo, hhi⟩ := clampQ_mem s (-1) 1 (by norm_num)
  set c := clampQ s (-1) 1 with hc
  have hml : (-32767 : ℚ) ≤ c * 32767 := by nlinarith
  have hmh : c * 32767 ≤ 32767 := by nlinarith
  unfold quantize
  rw [← hc, truncQ_eq]
  split
  case isTrue hpos =>
    constructor
    · have : (0 : ℤ) ≤ ⌊c * 32767⌋ := Int.floor_nonneg.mpr hpos
      omega
    · have := Int.floor_le_floor hmh
      simpa using this
  case isFalse hneg =>
    constructor
    · have h1 : ((-32767 : ℤ) : ℚ) ≤ c * 32767 := by exact_mod_cast hml
      have := Int.le_ceil (c * 32767)
      have h2 : ((-32767 : ℤ) : ℚ) ≤ (⌈c * 32767⌉ : ℚ) := le_trans h1 this
      exact_mod_cast h2
    · have h0 : c * 32767 ≤ ((0 : ℤ) : ℚ) := by
        push_cast
        linarith [lt_of_not_ge hneg]
      have : ⌈c * 32767⌉ ≤ (0 : ℤ) := Int.ceil_le.mpr h0
      omega

/-- On in-range inputs the quantized value is within one quantization step
of the exact scaled sample. -/
lemma quantize_close (q : ℚ) (h1 : -1 ≤ q) (h2 : q ≤ 1) :
    |(quantize q : ℚ) / 32767 - q| ≤ 1 / 32767 := by
  have hcl : clampQ q (-1) 1 = q := by
    unfold clampQ
    split
    · linarith
    · split
      · linarith
      · rfl
  unfold quantize
  rw [hcl, truncQ_eq]
  split
  case isTrue hpos =>
    have hfl : ((⌊q * 32767⌋ : ℤ) : ℚ) ≤ q * 32767 := Int.floor_le _
    have hfu : q * 32767 < (⌊q * 32767⌋ : ℚ) + 1 := Int.lt_floor_add_one _
    rw [abs_le]
    constructor <;> [linarith; linarith]
  case isFalse hneg =>
    have hcu : q * 32767 ≤ ((⌈q * 32767⌉ : ℤ) : ℚ) := Int.le_ceil _
    have hcl2 : (⌈q * 32767⌉ : ℚ) < q * 32767 + 1 := Int.ceil_lt_add_one _
    rw [abs_le]
    constructor <;> [linarith; linarith]

/-- Round trip of one 16-bit sample through its two's-complement
little-endian byte representation. -/
lemma i16_bytes_round (i : ℤ) (hlo : -32768 ≤ i) (hhi : i < 32768) :
    i16OfU16 ((i % 65536).toNat % 256 + 256 * ((i % 65536).toNat / 256 % 256)) = i := by
  unfold i16OfU16
  split <;> omega

/-- Decoding the sample byte stream recovers the quantized samples. -/
lemma decodeI16s_sampleBytes (samples : List ℚ) :
    decodeI16s (sampleBytes samples) = samples.map quantize := by
  induction samples with
  | nil => rfl
  | cons q rest ih =>
    have hq := quantize_range q
    have hstep : sampleBytes (q :: rest)
        = ((quantize q % 65536).toNat % 256)
          :: ((quantize q % 65536).toNat / 256 % 256) :: sampleBytes rest := by
      simp [sampleBytes, i16le, u16le]
    rw [hstep]
    have hdec : decodeI16s (((quantize q % 65536).toNat % 256)
          :: ((quantize q % 65536).toNat / 256 % 256) :: sampleBytes rest)
        = i16OfU16 ((quantize q % 65536).toNat % 256
            + 256 * ((quantize q % 65536).toNat / 256 % 256)) :: decodeI16s (sampleBytes rest) := rfl
    rw [hdec, i16_bytes_round (quantize q) (by omega) (by omega), ih]
    rfl

lemma wavBytes_cons (samples : List ℚ) (rate ch : Nat) :
    wavBytes samples rate ch =
      0x52 :: 0x49 :: 0x46 :: 0x46 ::
      ((36 + 2 * samples.length) % 256) :: ((36 + 2 * samples.length) / 256 % 256) ::
      ((36 + 2 * samples.length) / 65536 % 256) :: ((36 + 2 * samples.length) / 16777216 % 256) ::
      0x57 :: 0x41 :: 0x56 :: 0x45 :: 0x66 :: 0x6D :: 0x74 :: 0x20 ::
      16 :: 0 :: 0 :: 0 :: 1 :: 0 :: (ch % 256) :: (ch / 256 % 256) ::
      (rate % 256) :: (rate / 256 % 256) :: (rate / 65536 % 256) :: (rate / 16777216 % 256) ::
      ((rate * ch * 2) % 256) :: ((rate * ch * 2) / 256 % 256) ::
      ((rate * ch * 2) / 65536 % 256) :: ((rate * ch * 2) / 16777216 % 256) ::
      ((ch * 2) % 256) :: ((ch * 2) / 256 % 256) :: 16 :: 0 ::
      0x64 :: 0x61 :: 0x74 :: 0x61 ::
      ((2 * samples.length) % 256) :: ((2 * samples.length) / 256 % 256) ::
      ((2 * samples.length) / 65536 % 256) :: ((2 * samples.length) / 16777216 % 256) ::
      sampleBytes samples := rfl

theorem wavDecode_wavBytes (samples : List ℚ) (rate ch : Nat)
    (hrate : rate < 4294967296) (hch : ch < 65536) :
    wavDecode (wavBytes samples rate ch) = some (ch, rate, samples.map quantize) := by
  rw [wavBytes_cons]
  rw [wavDecode]
  rw [if_pos (by norm_num)]
  rw [decodeI16s_sampleBytes]
  refine congrArg some ?_
  refine Prod.ext ?_ (Prod.ext ?_ rfl)
  · show ch % 256 + 256 * (ch / 256 % 256) = ch
    omega
  · show rate % 256 + 256 * (rate / 256 % 256) + 65536 * (rate / 65536 % 256)
        + 16777216 * (rate / 16777216 % 256) = rate
    omega

/-- The planar interleaving the source performs is exactly the spec's
frame-by-frame silence-padded interleaving applied to the buffers that
survive the `num_samples > 0` guard. -/
lemma interleaveChannels_eq_specInterleave (bufs : List (List ℚ)) :
    interleaveChannels 0 bufs
      = specInterleave (bufs.filter (fun c => decide (0 < c.length))) := rfl

/-- Every path through macOS `start_capture` leaves the buffer empty and
the error slot clear: the reset happens first and nothing later appends. -/
lemma macStart_clears (env : MacEnv) (s : AudioCaptureState) (d : Nat) :
    (macStart env s d).state.samples = [] ∧ (macStart env s d).state.error = none := by
  unfold macStart AudioCaptureState.reset
  split
  · exact ⟨rfl, rfl⟩
  · split
    · exact ⟨rfl, rfl⟩
    · split
      · exact ⟨rfl, rfl⟩
      · exact ⟨rfl, rfl⟩

/-- macOS `start_capture` only sees the session through the reset: starting
from `s` and from `s.reset` is indistinguishable. -/
lemma macStart_reset_eq (env : MacEnv) (s : AudioCaptureState) (d : Nat) :
    macStart env s d = macStart env s.reset d := by
  unfold macStart
  have h : s.reset.reset = s.reset := rfl
  rw [h]

/-- Windows `start_capture` leaves the buffer empty and the error slot
clear, and is likewise blind to the pre-reset session content. -/
lemma winStart_clears (s : AudioCaptureState) (d : Nat) :
    (winStart s d).state.samples = [] ∧ (winStart s d).state.error = none
      ∧ winStart s d = winStart s.reset d := by
  unfold winStart
  exact ⟨rfl, rfl, rfl⟩

/-- macOS `stop_capture` releases both native handles on every path. -/
lemma macStop_releases (s : AudioCaptureState) :
    (macStop s).state.stop_tx = false ∧ (macStop s).state.stream = false :=
  ⟨rfl, rfl⟩

/-- macOS `stop_capture` never touches the samples, the format fields or
the error slot. -/
lemma macStop_preserves (s : AudioCaptureState) :
    (macStop s).state.samples = s.samples
      ∧ (macStop s).state.sample_rate = s.sample_rate
      ∧ (macStop s).state.channels = s.channels
      ∧ (macStop s).state.error = s.error :=
  ⟨rfl, rfl, rfl, rfl⟩

/-- The result of macOS `stop_capture` is a function of the samples and the
format fields only. -/
lemma macStop_result (s : AudioCaptureState) :
    (macStop s).result = if s.samples = [] then .error macEmptyMsg
      else .ok (String.mk ((base64Encode
        (wavBytes s.samples s.sample_rate s.channels)).map Char.ofNat)) :=
  rfl

/-- Windows `stop_capture` releases the stop sender and preserves samples,
format fields and the error slot. -/
lemma winStop_preserves (s : AudioCaptureState) :
    (winStop s).state.stop_tx = false
      ∧ (winStop s).state.samples = s.samples
      ∧ (winStop s).state.sample_rate = s.sample_rate
      ∧ (winStop s).state.channels = s.channels
      ∧ (winStop s).state.error = s.error
      ∧ (winStop s).state.stream = s.stream :=
  ⟨rfl, rfl, rfl, rfl, rfl, rfl⟩

/-- The result of Windows `stop_capture` as a function of the error slot,
samples and format fields. -/
lemma winStop_result (s : AudioCaptureState) :
    (winStop s).result = match s.error with
      | some e => .error e
      | none => if s.samples = [] then .error winEmptyMsg
          else .ok (String.mk ((base64Encode
            (wavBytes s.samples s.sample_rate s.channels)).map Char.ofNat)) :=
  rfl

/-- The macOS backend never writes the error slot: every reachable macOS
session state has an empty error slot. -/
lemma macReachable_error_none {s : AudioCaptureState} (h : macReachable s) :
    s.error = none := by
  induction h with
  | init => rfl
  | start env d _ _ => exact (macStart_clears env _ d).2
  | deliver bufs _ ih => exact ih
  | stop _ ih => exact ((macStop_preserves _).2.2.2).trans ih

/-- Once the stop flag has been delivered, the Windows capture loop breaks
out and stops the native stream, whatever else is scheduled. -/
lemma winWorker_stops_on_flag (bps ch : Nat) :
    ∀ (steps : List WStep) (samples : List Nat), WStep.flagSet ∈ steps →
      (winWorker bps ch steps samples).2 = true
  | [], _, h => absurd h (List.not_mem_nil _)
  | WStep.flagSet :: _, _, _ => rfl
  | WStep.packet f b :: rest, samples, h =>
      winWorker_stops_on_flag bps ch rest
        (winProcessPacket bps ch f b samples)
        (by cases h with
            | tail _ hm => exact hm)

/-! ## Claims -/

/-- C1, counterexample: the claim quantifies over every list of planar
channel buffers, but a channel with zero samples is dropped by the
`num_samples > 0` guard instead of contributing silence: for channels
`[[1], []]` the code yields `[1]` where the claimed frame-by-frame
interleaving with silence padding yields `[1, 0]`. -/
theorem spec_C1_counterexample :
    extractSamples [[1], []] ≠ specInterleave [[1], []] := by
  with_unfolding_all decide

/-- C1, amended: empty channel buffers are discarded first; on the channels
that survive the `num_samples > 0` guard, `extract_audio_samples` performs
exactly the spec's frame-by-frame interleaving, padding channels shorter
than the longest surviving channel with 0.0 instead of truncating — and the
two concrete examples of the claim hold as stated. -/
theorem spec_C1_planar_interleave :
    (∀ bufs : List (List ℚ), 2 ≤ bufs.length →
        extractSamples bufs
          = specInterleave (bufs.filter (fun c => decide (0 < c.length))))
    ∧ extractSamples [[1, 2, 3], [10, 20, 30]] = [1, 10, 2, 20, 3, 30]
    ∧ extractSamples [[1, 2, 3], [10, 20]] = [1, 10, 2, 20, 3, 0] := by
  refine ⟨?_, by with_unfolding_all decide, by with_unfolding_all decide⟩
  intro bufs h
  match bufs with
  | [] => exact absurd h (by decide)
  | [b] => exact absurd h (by simp)
  | a :: b :: l =>
    have hstep : extractSamples (a :: b :: l) = interleaveChannels 0 (a :: b :: l) := rfl
    rw [hstep, interleaveChannels_eq_specInterleave]

/-- C1, witness: the amended interleaving equation at the concrete planar
input `[[1], [2]]`. -/
theorem spec_C1_witness :
    extractSamples [[1], [2]]
      = specInterleave ([[1], [2]].filter (fun c => decide (0 < c.length))) :=
  spec_C1_planar_interleave.1 [[1], [2]] (by decide)

/-- C2: the per-sample conversion clamps to `[-1, 1]` and then scales by
32767 with truncation toward zero: `1.0 ↦ 32767`, `-1.0 ↦ -32767` (not
`-32768`), the out-of-range `1.5` maps like `1.0`, and every input lands in
`[-32767, 32767]`, so no input wraps or overflows the 16-bit range. -/
theorem spec_C2_quantization :
    quantize 1 = 32767
    ∧ quantize (-1) = -32767
    ∧ quantize (3 / 2) = quantize 1
    ∧ (∀ s : ℚ, -32767 ≤ quantize s ∧ quantize s ≤ 32767) :=
  ⟨by with_unfolding_all decide, by with_unfolding_all decide,
   by with_unfolding_all decide, quantize_range⟩

/-- C3, counterexample: on Windows a session that collected zero samples
while the error slot holds a backend-reported failure does not return the
`EmptyCapture` message — the recorded error takes priority, so the claim's
"whenever zero samples were collected it returns the EmptyCapture error"
fails at this state. -/
theorem spec_C3_counterexample :
    (winStop { samples := [], sample_rate := 48000, channels := 2,
               stop_tx := false,
               error := some "Failed to get audio device: device not found",
               stream := false }).result
      ≠ Except.error winEmptyMsg := by
  rw [winStop_result]
  intro h
  exact absurd (Except.error.inj h) (by decide)

/-- C3, amended: with zero samples collected, macOS `stop_capture` always
returns the `EmptyCapture` error; Windows `stop_capture` returns it
whenever the error slot is empty (otherwise it returns the recorded error,
which is still not a success); and on both platforms a success result is
only ever produced from a non-empty sample buffer. -/
theorem spec_C3_empty_capture :
    (∀ s : AudioCaptureState, s.samples = [] →
        (macStop s).result = Except.error macEmptyMsg)
    ∧ (∀ s : AudioCaptureState, s.samples = [] → s.error = none →
        (winStop s).result = Except.error winEmptyMsg)
    ∧ (∀ (s : AudioCaptureState) (r : String),
        (macStop s).result = Except.ok r → s.samples ≠ [])
    ∧ (∀ (s : AudioCaptureState) (r : String),
        (winStop s).result = Except.ok r → s.samples ≠ []) := by
  refine ⟨?_, ?_, ?_, ?_⟩
  · intro s hs
    rw [macStop_result, if_pos hs]
  · intro s hs he
    rw [winStop_result, he]
    simp only [if_pos hs]
  · intro s r h hs
    rw [macStop_result, if_pos hs] at h
    exact Except.noConfusion h
  · intro s r h hs
    rw [winStop_result] at h
    cases herr : s.error with
    | some e =>
      rw [herr] at h
      exact Except.noConfusion h
    | none =>
      rw [herr] at h
      simp only [if_pos hs] at h
      exact Except.noConfusion h

/-- C3, witness: a fresh session stopped with no samples yields the empty
capture error on both platforms. -/
theorem spec_C3_witness :
    (macStop AudioCaptureState.new).result = Except.error macEmptyMsg
    ∧ (winStop AudioCaptureState.new).result = Except.error winEmptyMsg :=
  ⟨spec_C3_empty_capture.1 AudioCaptureState.new rfl,
   spec_C3_empty_capture.2.1 AudioCaptureState.new rfl rfl⟩

/-- A session in the middle of an active capture: one sample collected, a
live stop sender and a live native stream handle. -/
def activeSession : AudioCaptureState :=
  { samples := [1], sample_rate := 48000, channels := 2,
    stop_tx := true, error := none, stream := true }

/-- A ScreenCaptureKit environment in which every native call succeeds. -/
def okEnv : MacEnv :=
  { contentOk := true, displays := 1, startOk := true }

/-- A Windows session that collected samples but whose worker recorded a
fatal native-API failure. -/
def winFailedSession : AudioCaptureState :=
  { samples := [1, 2, 3], sample_rate := 48000, channels := 2,
    stop_tx := true, error := some "Failed to get mix format: denied",
    stream := false }

/-- C4, counterexample: starting while a capture is already active is not a
no-op — at a session holding one sample with a live stop sender and stream,
`start_capture` wipes the sample buffer and invokes a fresh native stream
start, contradicting the claimed idempotent start. -/
theorem spec_C4_counterexample :
    ¬ ((macStart okEnv activeSession 10).state.samples = activeSession.samples
      ∧ Event.nativeStreamStart ∉ (macStart okEnv activeSession 10).events) := by
  with_unfolding_all decide

/-- C4, amended: `start_capture` is never a no-op: with the native calls
succeeding it unconditionally resets the sample buffer and the error slot,
starts a new native stream (replacing the stored handles), and returns
success — regardless of whether a capture was already active, so the
previous session's samples are discarded rather than preserved. -/
theorem spec_C4_start_always_resets :
    ∀ (env : MacEnv) (s : AudioCaptureState) (d : Nat),
      env.contentOk = true → env.displays ≠ 0 →
        (macStart env s d).state.samples = []
        ∧ (macStart env s d).state.error = none
        ∧ Event.nativeStreamStart ∈ (macStart env s d).events
        ∧ (env.startOk = true → (macStart env s d).result = Except.ok ())
        ∧ (winStart s d).state.samples = [] := by
  intro env s d h1 h2
  refine ⟨(macStart_clears env s d).1, (macStart_clears env s d).2, ?_, ?_, rfl⟩
  · unfold macStart
    rw [h1]
    simp only [Bool.not_true, Bool.false_eq_true, if_false, if_neg h2]
    split <;> simp
  · intro h3
    unfold macStart
    rw [h1, h3]
    simp only [Bool.not_true, Bool.false_eq_true, if_false, if_neg h2]

/-- C4, witness: the amended behaviour at a concrete already-active
session. -/
theorem spec_C4_witness :
    (macStart okEnv activeSession 10).state.samples = []
    ∧ (macStart okEnv activeSession 10).state.error = none
    ∧ Event.nativeStreamStart ∈ (macStart okEnv activeSession 10).events
    ∧ (okEnv.startOk = true → (macStart okEnv activeSession 10).result = Except.ok ())
    ∧ (winStart activeSession 10).state.samples = [] :=
  spec_C4_start_always_resets okEnv activeSession 10 rfl (by decide)

/-- C5: a backend-reported error recorded in the session's error slot takes
priority in `stop_capture` over any would-be success — on Windows the
recorded error is returned verbatim even when samples were collected, and
on macOS (whose `stop_capture` never consults the slot) every reachable
session state has an empty error slot because that backend never writes it,
so no macOS session can ever be stopped with an error pending. -/
theorem spec_C5_error_priority :
    (∀ (s : AudioCaptureState) (e : String), s.error = some e →
        (winStop s).result = Except.error e)
    ∧ (∀ s : AudioCaptureState, macReachable s → s.error = none) :=
  ⟨fun s e h => by rw [winStop_result, h],
   fun _ h => macReachable_error_none h⟩

/-- C5, witness: the error slot wins over three collected samples on
Windows, and the freshly created session is a reachable macOS state with an
empty slot. -/
theorem spec_C5_witness :
    (winStop winFailedSession).result
      = Except.error "Failed to get mix format: denied"
    ∧ AudioCaptureState.new.error = none :=
  ⟨spec_C5_error_priority.1 winFailedSession "Failed to get mix format: denied" rfl,
   spec_C5_error_priority.2 AudioCaptureState.new macReachable.init⟩

/-- C6, counterexample: a 4-byte native buffer that is actually two 16-bit
samples is neither converted (which would give 2 samples) nor rejected with
an error: the macOS extraction blindly reinterprets it as a single 32-bit
float word and succeeds, i.e. it silently misinterprets the bytes. -/
theorem spec_C6_counterexample :
    ¬ ((∃ e, extractSamplesBytes (some [[1, 0, 0, 0]]) = Except.error e)
      ∨ (∃ l, extractSamplesBytes (some [[1, 0, 0, 0]]) = Except.ok l
          ∧ l.length = 2)) := by
  have hval : extractSamplesBytes (some [[1, 0, 0, 0]]) = Except.ok [1] := rfl
  intro h
  cases h with
  | inl h =>
    obtain ⟨e, he⟩ := h
    rw [hval] at he
    exact Except.noConfusion he
  | inr h =>
    obtain ⟨l, hl, hlen⟩ := h
    rw [hval] at hl
    cases hl
    exact absurd hlen (by decide)

/-- C6, amended: neither backend checks the delivered sample format.  The
macOS extraction reinterprets every buffer as 32-bit words unconditionally
and never fails on buffer contents (`n` bytes always become `n / 4`
samples, whatever the true format), and the Windows loop appends samples
only when the session's bytes-per-sample is 4, silently skipping every
packet otherwise — in both cases without recording any error. -/
theorem spec_C6_format_blind :
    (∀ b : List Nat, extractSamplesBytes (some [b]) = Except.ok (decode4 b))
    ∧ (∀ b : List Nat, (decode4 b).length = b.length / 4)
    ∧ (∀ (bps ch f : Nat) (buf samples : List Nat), bps ≠ 4 →
        winProcessPacket bps ch f buf samples = samples) := by
  refine ⟨fun b => rfl, fun b => ?_, fun bps ch f buf samples h => ?_⟩
  · unfold decode4
    rw [List.length_map, List.length_range]
  · unfold winProcessPacket
    rw [if_neg h]
    split <;> rfl

/-- C6, witness: the amended statement at a 4-byte buffer and at a 2-byte
format packet. -/
theorem spec_C6_witness :
    extractSamplesBytes (some [[0, 0, 128, 63]]) = Except.ok (decode4 [0, 0, 128, 63])
    ∧ (decode4 [0, 0, 128, 63]).length = [0, 0, 128, 63].length / 4
    ∧ winProcessPacket 2 2 3 [0, 1, 2, 3, 4, 5] [7] = [7] :=
  ⟨spec_C6_format_blind.1 [0, 0, 128, 63],
   spec_C6_format_blind.2.1 [0, 0, 128, 63],
   spec_C6_format_blind.2.2 2 2 3 [0, 1, 2, 3, 4, 5] [7] (by decide)⟩

/-- C7: encoding any sample list with the container encoder and decoding
the container with a conforming WAV reader reproduces the channel count,
the sample rate and the sample count exactly, and every in-range input
sample is reproduced within the 16-bit quantization error of `1/32767`
(the decoded integer scaled back by `1/32767` differs from the original by
at most that much). -/
theorem spec_C7_wav_round_trip :
    ∀ (samples : List ℚ) (rate ch : Nat), rate < 4294967296 → ch < 65536 →
      wavDecode (wavBytes samples rate ch) = some (ch, rate, samples.map quantize)
      ∧ (samples.map quantize).length = samples.length
      ∧ ∀ q ∈ samples, -1 ≤ q → q ≤ 1 →
          |(quantize q : ℚ) / 32767 - q| ≤ 1 / 32767 :=
  fun samples rate ch h1 h2 =>
    ⟨wavDecode_wavBytes samples rate ch h1 h2,
     List.length_map samples quantize,
     fun q _ hlo hhi => quantize_close q hlo hhi⟩

/-- C7, witness: the byte-exact container round trip at one concrete
stereo-rate encoding. -/
theorem spec_C7_witness :
    wavDecode (wavBytes [1 / 2] 48000 2) = some (2, 48000, [1 / 2].map quantize) :=
  (spec_C7_wav_round_trip [1 / 2] 48000 2 (by decide) (by decide)).1

/-- C8: `stop_capture` always runs the complete stop sequence before its
result is computed.  On macOS, for any active session (live sender and
stream) the emitted sequence is exactly signal → backend stream stop →
grace wait → buffer check, and on every input — samples or none — both
native handles are released.  On Windows the sequence is signal → grace
wait → error-slot check → buffer check, the sender is released on every
path, and the capture worker stops the native stream as soon as the stop
flag it was signalled with is observed. -/
theorem spec_C8_stop_sequence :
    (∀ s : AudioCaptureState, s.stop_tx = true → s.stream = true →
        (macStop s).events
          = [Event.signalStop, Event.backendStreamStop, Event.graceWait,
             Event.checkBuffer])
    ∧ (∀ s : AudioCaptureState,
        (macStop s).state.stop_tx = false ∧ (macStop s).state.stream = false)
    ∧ (∀ s : AudioCaptureState, s.stop_tx = true → s.error = none →
        (winStop s).events
          = [Event.signalStop, Event.graceWait, Event.checkErrorSlot,
             Event.checkBuffer])
    ∧ (∀ s : AudioCaptureState, (winStop s).state.stop_tx = false)
    ∧ (∀ (bps ch : Nat) (steps : List WStep) (samples : List Nat),
        WStep.flagSet ∈ steps → (winWorker bps ch steps samples).2 = true) := by
  refine ⟨?_, macStop_releases, ?_, fun s => (winStop_preserves s).1,
    winWorker_stops_on_flag⟩
  · intro s h1 h2
    unfold macStop
    rw [h1, h2]
    rfl
  · intro s h1 h2
    unfold winStop
    rw [h1, h2]
    rfl

/-- C8, witness: the full sequence and the released handles at a concrete
active session stopped before any further sample arrived, and a worker
schedule whose flag observation stops the native stream. -/
theorem spec_C8_witness :
    (macStop activeSession).events
      = [Event.signalStop, Event.backendStreamStop, Event.graceWait,
         Event.checkBuffer]
    ∧ (winStop activeSession).events
      = [Event.signalStop, Event.graceWait, Event.checkErrorSlot,
         Event.checkBuffer]
    ∧ (winWorker 4 2 [WStep.flagSet] []).2 = true :=
  ⟨spec_C8_stop_sequence.1 activeSession rfl rfl,
   spec_C8_stop_sequence.2.2.1 activeSession rfl rfl,
   spec_C8_stop_sequence.2.2.2.2 4 2 [WStep.flagSet] [] (by decide)⟩

/-- C9: `reset()` leaves any session with an empty sample buffer and an
empty error slot, and both platforms' `start_capture` begin with that reset
— every start path ends with cleared samples and error, and starting from
`s` is indistinguishable from starting from `s.reset`, so the buffer is
clear at the beginning of every new session. -/
theorem spec_C9_reset_and_start :
    (∀ s : AudioCaptureState, s.reset.samples = [] ∧ s.reset.error = none)
    ∧ (∀ (env : MacEnv) (s : AudioCaptureState) (d : Nat),
        (macStart env s d).state.samples = []
        ∧ (macStart env s d).state.error = none
        ∧ macStart env s d = macStart env s.reset d)
    ∧ (∀ (s : AudioCaptureState) (d : Nat),
        (winStart s d).state.samples = []
        ∧ (winStart s d).state.error = none
        ∧ winStart s d = winStart s.reset d) :=
  ⟨fun _ => ⟨rfl, rfl⟩,
   fun env s d => ⟨(macStart_clears env s d).1, (macStart_clears env s d).2,
     macStart_reset_eq env s d⟩,
   fun s d => winStart_clears s d⟩

/-- C10: `stop_capture` is read-only on the samples and the error slot, so
calling it twice in a row without an intervening start returns the same
result both times on either platform. -/
theorem spec_C10_stop_stable :
    ∀ s : AudioCaptureState,
      (macStop (macStop s).state).result = (macStop s).result
      ∧ (macStop s).state.samples = s.samples
      ∧ (macStop s).state.error = s.error
      ∧ (winStop (winStop s).state).result = (winStop s).result
      ∧ (winStop s).state.samples = s.samples
      ∧ (winStop s).state.error = s.error := by
  intro s
  obtain ⟨hm1, hm2, hm3, hm4⟩ := macStop_preserves s
  obtain ⟨hw0, hw1, hw2, hw3, hw4, hw5⟩ := winStop_preserves s
  refine ⟨?_, hm1, hm4, ?_, hw1, hw4⟩
  · rw [macStop_result ((macStop s).state), hm1, hm2, hm3, macStop_result s]
  · rw [winStop_result ((winStop s).state), hw1, hw2, hw3, hw4, winStop_result s]
